import Mathlib

/-
Verification of the recipes posts API: data model (src/posts/models.py) and
the request-handling pipeline (content negotiation, JSON schema validation,
list/get/create handlers) as documented in the specification. The handler and
validator code is not part of the provided sources (only its tests and the
model are), so those components are modelled from the specification text;
the Post record and its as_dictionary serialization are translated directly
from src/posts/models.py.
-/

namespace Recipes

/-- A JSON value, sufficient for the payloads and responses of this API.
Numbers are modelled as integers (the only numeric payloads exercised are
integers, e.g. the invalid `ingredients: 32`). -/
inductive Json where
  | null
  | bool (b : Bool)
  | num (n : Int)
  | str (s : String)
  | arr (elems : List Json)
  | obj (fields : List (String × Json))
deriving Repr

/-- Translated from src/posts/models.py: the Post table has columns
id (Integer, primary key), name (String, nullable=False),
description (String, nullable), ingredients (String, nullable=False),
directions (String, nullable=False). Non-nullable columns are plain
strings; the nullable description is an Option. -/
structure Post where
  id : Nat
  name : String
  description : Option String
  ingredients : String
  directions : String
deriving Repr, DecidableEq

/-- Option String rendered as a JSON value: None becomes JSON null. -/
def optStrJson : Option String → Json
  | none => Json.null
  | some s => Json.str s

/-- Translated from src/posts/models.py, Post.as_dictionary: builds the
dictionary with keys id, name, description, ingredients, directions mapped
to the corresponding attributes. -/
def Post.as_dictionary (p : Post) : List (String × Json) :=
  [ ("id", Json.num p.id),
    ("name", Json.str p.name),
    ("description", optStrJson p.description),
    ("ingredients", Json.str p.ingredients),
    ("directions", Json.str p.directions) ]

/-- An incoming HTTP request's negotiation-relevant data: the Accept header
(absent, or the list of media types the client accepts) and the
Content-Type header. -/
structure Request where
  accept : Option (List String)
  contentType : Option String
deriving Repr, DecidableEq

/-- An HTTP response: status code, mimetype, JSON body, and optional
Location header path. -/
structure Response where
  status : Nat
  mimetype : String
  body : Json
  location : Option String
deriving Repr

/-- The JSON error body shape: a single message field. -/
def jsonMessage (m : String) : Json := Json.obj [("message", Json.str m)]

/-- An error response: the given status with a JSON message body. -/
def errorResponse (status : Nat) (m : String) : Response :=
  ⟨status, "application/json", jsonMessage m, none⟩

/-- Modelled from the spec (§4.1 Content Negotiator; the decorator module is
not among the provided sources): the Accept check succeeds iff the header is
absent or the client accepts application/json, including via the wildcard. -/
def acceptsJson : Option (List String) → Bool
  | none => true
  | some types => types.contains "application/json" || types.contains "*/*"

/-- Modelled from the spec (§4.1): the 406 response for an unacceptable
Accept header. -/
def notAcceptableResponse : Response :=
  errorResponse 406 "Request must accept application/json data"

/-- Modelled from the spec (§4.1): the 415 response for a create request
whose Content-Type is not application/json. -/
def unsupportedMediaResponse : Response :=
  errorResponse 415 "Request must contain application/json data"

/-- Modelled from the spec (§4.2): the required properties of the post
schema, in schema order. -/
def requiredFields : List String := ["name", "ingredients", "directions"]

/-- Modelled from the spec (§4.2): all properties the post schema declares
(description is optional), in schema order. -/
def schemaFields : List String := ["name", "description", "ingredients", "directions"]

/-- Whether a JSON value is a string. -/
def Json.isStr : Json → Bool
  | Json.str _ => true
  | _ => false

/-- Modelled from the spec (§4.2): a JSON value rendered in its natural
string form for validation messages — a bare integer for numbers, Python
literal forms for null and booleans, quoted for strings. -/
def render : Json → String
  | Json.null => "None"
  | Json.bool b => if b then "True" else "False"
  | Json.num n => toString n
  | Json.str s => "'" ++ s ++ "'"
  | Json.arr _ => "[...]"
  | Json.obj _ => "\x7b...\x7d"

/-- Modelled from the spec (§4.2): the message for an absent required
property. -/
def requiredMessage (f : String) : String := "'" ++ f ++ "' is a required property"

/-- Modelled from the spec (§4.2): the message for a present property whose
value has the wrong JSON type (all schema properties are strings). -/
def typeMessage (v : Json) : String := render v ++ " is not of type 'string'"

/-- Modelled from the spec (§4.2): the message for a disallowed additional
property. -/
def additionalMessage (k : String) : String :=
  "Additional properties are not allowed ('" ++ k ++ "' was unexpected)"

/-- The first required field absent from the payload, in schema order. -/
def firstMissing (body : List (String × Json)) : Option String :=
  requiredFields.find? (fun f => (body.lookup f).isNone)

/-- The first present schema property whose value is not a string, in
schema order. -/
def firstBadType (body : List (String × Json)) : Option Json :=
  (schemaFields.filterMap (fun f => body.lookup f)).find? (fun v => !v.isStr)

/-- The first payload key that is not a declared schema property. -/
def firstExtra (body : List (String × Json)) : Option String :=
  (body.map Prod.fst).find? (fun k => !schemaFields.contains k)

/-- Modelled from the spec (§4.2, §9: the validator module is not among the
provided sources): an explicit, ordered set of field checks — presence of
required properties, then types of present properties, then the
additional-properties restriction — returning the first violation's
message, or none when the payload is valid. -/
def validate (body : List (String × Json)) : Option String :=
  match firstMissing body with
  | some f => some (requiredMessage f)
  | none =>
    match firstBadType body with
    | some v => some (typeMessage v)
    | none =>
      match firstExtra body with
      | some k => some (additionalMessage k)
      | none => none

/-- The ordering of stored posts used by the list handler: ascending id. -/
def idLe (p q : Post) : Prop := p.id ≤ q.id

instance : DecidableRel idLe := fun p q => Nat.decLe p.id q.id

instance : IsTotal Post idLe := ⟨fun a b => Nat.le_total a.id b.id⟩

instance : IsTrans Post idLe := ⟨fun _ _ _ h h2 => Nat.le_trans h h2⟩

/-- Modelled from the spec (§4.3, list step 3: order results by ascending
id): storage results sorted by id. -/
def sortById (l : List Post) : List Post := List.insertionSort idLe l

/-- Modelled from the spec (§4.3: SQL LIKE with implicit wildcards on both
ends, case-sensitive): whether the haystack contains the needle as a
substring. The empty needle matches everything. -/
def strContains (hay needle : String) : Bool :=
  needle.isEmpty || (hay.splitOn needle).length ≥ 2

/-- The largest id present in storage, 0 when storage is empty. -/
def maxId (l : List Post) : Nat := l.foldr (fun p m => max p.id m) 0

/-- Modelled from the spec (§4.3, §8: the next sequential id, starting at 1
in empty storage): the storage-assigned id for a newly created post. -/
def nextId (l : List Post) : Nat := maxId l + 1

/-- The string value of a schema property in a validated payload (defaults
to the empty string, unreachable after successful validation). -/
def getStrField (body : List (String × Json)) (f : String) : String :=
  match body.lookup f with
  | some (Json.str s) => s
  | _ => ""

/-- The optional description string of a validated payload: absent maps to
none (stored as NULL). -/
def getDescription (body : List (String × Json)) : Option String :=
  match body.lookup "description" with
  | some (Json.str s) => some s
  | _ => none

/-- Modelled from the spec (§4.3 create step 4): the new Post constructed
from the validated payload and the storage-assigned id. -/
def buildPost (i : Nat) (body : List (String × Json)) : Post :=
  { id := i,
    name := getStrField body "name",
    description := getDescription body,
    ingredients := getStrField body "ingredients",
    directions := getStrField body "directions" }

/-- The list of posts the list handler serializes: all stored posts ordered
by ascending id, restricted to names containing the filter substring when
name_like is present. -/
def listedPosts (nameLike : Option String) (storage : List Post) : List Post :=
  match nameLike with
  | none => sortById storage
  | some s => (sortById storage).filter (fun p => strContains p.name s)

/-- Modelled from the spec (§4.3 List Posts; the handler module is not among
the provided sources): GET /api/posts with optional name_like. Returns the
response and the (unchanged) storage. -/
def posts_get (req : Request) (nameLike : Option String) (storage : List Post) :
    Response × List Post :=
  if acceptsJson req.accept then
    (⟨200, "application/json",
      Json.arr ((listedPosts nameLike storage).map (fun p => Json.obj p.as_dictionary)),
      none⟩, storage)
  else
    (notAcceptableResponse, storage)

/-- Modelled from the spec (§4.3 Get Post by Id; the handler module is not
among the provided sources): GET /api/posts/<id>. Returns the response and
the (unchanged) storage. -/
def post_get (req : Request) (i : Nat) (storage : List Post) :
    Response × List Post :=
  if acceptsJson req.accept then
    match storage.find? (fun p => p.id == i) with
    | some p => (⟨200, "application/json", Json.obj p.as_dictionary, none⟩, storage)
    | none => (errorResponse 404 ("Could not find post with id " ++ toString i), storage)
  else
    (notAcceptableResponse, storage)

/-- Modelled from the spec (§4.3 Create Post; the handler module is not
among the provided sources): POST /api/posts. Accept negotiation first, then
the Content-Type check, then validation; on success the new post is
persisted and returned with a Location header. Returns the response and the
resulting storage. -/
def posts_post (req : Request) (body : List (String × Json)) (storage : List Post) :
    Response × List Post :=
  if acceptsJson req.accept then
    if req.contentType = some "application/json" then
      match validate body with
      | some m => (errorResponse 422 m, storage)
      | none =>
        (⟨201, "application/json",
          Json.obj (buildPost (nextId storage) body).as_dictionary,
          some ("/api/posts/" ++ toString (nextId storage))⟩,
         storage ++ [buildPost (nextId storage) body])
    else
      (unsupportedMediaResponse, storage)
  else
    (notAcceptableResponse, storage)

/-- The storage invariant on ids: no two persisted posts share an id. -/
def idsDistinct (storage : List Post) : Prop := (storage.map Post.id).Nodup

instance (storage : List Post) : Decidable (idsDistinct storage) :=
  List.nodupDecidable _

theorem mem_le_maxId {p : Post} : ∀ {l : List Post}, p ∈ l → p.id ≤ maxId l
  | q :: l, h => by
    rcases List.mem_cons.mp h with h | h
    · subst h
      exact Nat.le_max_left p.id (maxId l)
    · exact Nat.le_trans (mem_le_maxId h) (Nat.le_max_right q.id (maxId l))

theorem id_lt_nextId {p : Post} {l : List Post} (h : p ∈ l) : p.id < nextId l :=
  Nat.lt_succ_of_le (mem_le_maxId h)

theorem sortById_perm (l : List Post) : List.Perm (sortById l) l :=
  List.perm_insertionSort idLe l

theorem sortById_sorted (l : List Post) : List.Pairwise idLe (sortById l) :=
  List.sorted_insertionSort idLe l

theorem validate_none_parts {body : List (String × Json)} (h : validate body = none) :
    firstMissing body = none ∧ firstBadType body = none ∧ firstExtra body = none := by
  unfold validate at h
  cases hm : firstMissing body with
  | some f => rw [hm] at h; simp at h
  | none =>
    rw [hm] at h
    cases hb : firstBadType body with
    | some v => rw [hb] at h; simp at h
    | none =>
      rw [hb] at h
      cases he : firstExtra body with
      | some k => rw [he] at h; simp at h
      | none => exact ⟨rfl, rfl, rfl⟩

theorem validate_of_missing {body : List (String × Json)} {f : String}
    (h : firstMissing body = some f) : validate body = some (requiredMessage f) := by
  unfold validate
  rw [h]

theorem validate_of_badType {body : List (String × Json)} {v : Json}
    (hm : firstMissing body = none) (hb : firstBadType body = some v) :
    validate body = some (typeMessage v) := by
  unfold validate
  rw [hm, hb]

theorem isStr_exists {v : Json} (h : v.isStr = true) : ∃ s, v = Json.str s := by
  cases v <;> first | exact ⟨_, rfl⟩ | simp [Json.isStr] at h

theorem lookup_str_of_valid {body : List (String × Json)} {f : String}
    (h : validate body = none) (hf : f ∈ requiredFields) :
    body.lookup f = some (Json.str (getStrField body f)) := by
  obtain ⟨hm, hb, _⟩ := validate_none_parts h
  have h1 : ¬ (((body.lookup f).isNone : Bool) = true) := List.find?_eq_none.mp hm f hf
  obtain ⟨v, hv⟩ : ∃ v, body.lookup f = some v := by
    cases hv : body.lookup f with
    | none => exact absurd (by rw [hv]; rfl) h1
    | some v => exact ⟨v, rfl⟩
  have hf2 : f ∈ schemaFields := by
    simp only [requiredFields, List.mem_cons, List.not_mem_nil, or_false] at hf
    rcases hf with h | h | h <;> simp [schemaFields, h]
  have hvmem : v ∈ schemaFields.filterMap (fun g => body.lookup g) :=
    List.mem_filterMap.mpr ⟨f, hf2, hv⟩
  have hstr : v.isStr = true := by
    have h2 := List.find?_eq_none.mp hb v hvmem
    simpa using h2
  obtain ⟨s, rfl⟩ := isStr_exists hstr
  rw [hv]
  simp [getStrField, hv]

theorem find?_append_of_none {f : Post → Bool} {l m : List Post}
    (h : l.find? f = none) : (l ++ m).find? f = m.find? f := by
  rw [List.find?_append, h, Option.none_or]

theorem find?_of_mem_nodup :
    ∀ {l : List Post} {p : Post} {i : Nat}, idsDistinct l → p ∈ l → p.id = i →
      l.find? (fun q => q.id == i) = some p
  | [], p, _ => fun _ hp _ => absurd hp (List.not_mem_nil p)
  | q :: l, p, i => fun hd hp hi => by
    have hd2 : q.id ∉ l.map Post.id ∧ (l.map Post.id).Nodup := by
      simpa [idsDistinct] using hd
    by_cases hq : q.id = i
    · have hpq : p = q := by
        rcases List.mem_cons.mp hp with h | h
        · exact h
        · exact absurd (by rw [hq, ← hi]; exact List.mem_map_of_mem Post.id h) hd2.1
      rw [List.find?_cons_of_pos _ (by simp [hq]), hpq]
    · rw [List.find?_cons_of_neg _ (by simp [hq])]
      have hpl : p ∈ l := by
        rcases List.mem_cons.mp hp with h | h
        · exact absurd (by rw [← h, hi]) hq
        · exact h
      exact find?_of_mem_nodup hd2.2 hpl hi

theorem posts_post_invalid {req : Request} {body : List (String × Json)}
    {storage : List Post} {m : String}
    (hacc : acceptsJson req.accept = true)
    (hct : req.contentType = some "application/json")
    (hm : validate body = some m) :
    posts_post req body storage = (errorResponse 422 m, storage) := by
  unfold posts_post
  rw [hacc, hct, hm]
  simp

theorem posts_post_success {req : Request} {body : List (String × Json)}
    (storage : List Post)
    (hacc : acceptsJson req.accept = true)
    (hct : req.contentType = some "application/json")
    (hv : validate body = none) :
    posts_post req body storage
      = (⟨201, "application/json",
          Json.obj (buildPost (nextId storage) body).as_dictionary,
          some ("/api/posts/" ++ toString (nextId storage))⟩,
         storage ++ [buildPost (nextId storage) body]) := by
  unfold posts_post
  rw [hacc, hct, hv]
  simp

theorem posts_get_storage {req : Request} {nameLike : Option String}
    {storage : List Post} : (posts_get req nameLike storage).2 = storage := by
  unfold posts_get
  by_cases h : acceptsJson req.accept <;> simp [h]

theorem post_get_storage {req : Request} {i : Nat} {storage : List Post} :
    (post_get req i storage).2 = storage := by
  unfold post_get
  by_cases h : acceptsJson req.accept
  · rw [h]
    cases storage.find? (fun p => p.id == i) <;> simp
  · simp [h]

theorem posts_post_storage (req : Request) (body : List (String × Json))
    (storage : List Post) :
    (posts_post req body storage).2 = storage ∨
    (posts_post req body storage).2 = storage ++ [buildPost (nextId storage) body] := by
  unfold posts_post
  by_cases ha : acceptsJson req.accept
  · rw [ha]
    by_cases hc : req.contentType = some "application/json"
    · rw [if_pos hc]
      cases validate body <;> simp
    · rw [if_neg hc]
      exact Or.inl rfl
  · simp [ha]

/-- Test fixture: a request accepting application/json with JSON content. -/
def jsonRequest : Request := ⟨some ["application/json"], some "application/json"⟩

/-- Test fixture: the fully valid create payload of test_post_post. -/
def exampleBody : List (String × Json) :=
  [ ("name", Json.str "Example Post"), ("description", Json.str "test"),
    ("ingredients", Json.str "Just a test"), ("directions", Json.str "testing") ]

/-- Test fixture: the payload of test_missing_data (no ingredients). -/
def missingBody : List (String × Json) := [("name", Json.str "Example Post")]

/-- Test fixture: the payload of test_invalid_data (ingredients is 32). -/
def badTypeBody : List (String × Json) :=
  [ ("name", Json.str "Example Post"), ("ingredients", Json.num 32),
    ("directions", Json.str "testing") ]

/-- Test fixture: a payload with a property the schema does not declare. -/
def extraBody : List (String × Json) :=
  [ ("name", Json.str "x"), ("ingredients", Json.str "y"),
    ("directions", Json.str "z"), ("extra", Json.str "w") ]

/-- Test fixture: the first post of test_get_posts_with_name. -/
def postBells : Post := ⟨1, "Post with bells", none, "Just a test", "testing"⟩

/-- Test fixture: the second post of test_get_posts_with_name. -/
def postWhistles : Post := ⟨2, "Post with whistles", none, "Still a test", "testing"⟩

/-- Test fixture: the third post of test_get_posts_with_name. -/
def postBoth : Post := ⟨3, "Post with bells and whistles", none, "Another test", "testing"⟩

/-- Test fixture: the populated storage of test_get_posts_with_name. -/
def exampleStorage : List Post := [postBells, postWhistles, postBoth]

/-- Claim C10: as_dictionary returns a dictionary with exactly the five keys
id, name, description, ingredients, directions, each mapped verbatim to the
record's corresponding attribute; a Post stored without a description still
yields the description key with value null rather than omitting it. -/
theorem claim_C10 (p : Post) :
    (p.as_dictionary).map Prod.fst
      = ["id", "name", "description", "ingredients", "directions"] ∧
    (p.as_dictionary).length = 5 ∧
    (p.as_dictionary).lookup "id" = some (Json.num p.id) ∧
    (p.as_dictionary).lookup "name" = some (Json.str p.name) ∧
    (p.as_dictionary).lookup "description" = some (optStrJson p.description) ∧
    (p.as_dictionary).lookup "ingredients" = some (Json.str p.ingredients) ∧
    (p.as_dictionary).lookup "directions" = some (Json.str p.directions) ∧
    (p.description = none → (p.as_dictionary).lookup "description" = some Json.null) :=
  ⟨rfl, rfl, rfl, rfl, rfl, rfl, rfl, fun h => by rw [Post.as_dictionary, h]; rfl⟩

/-- Witness for claim C10 at a concrete post with no description. -/
theorem claim_C10_witness :
    (postBells.as_dictionary).lookup "description" = some Json.null ∧
    (postBells.as_dictionary).map Prod.fst
      = ["id", "name", "description", "ingredients", "directions"] :=
  ⟨(claim_C10 postBells).2.2.2.2.2.2.2 rfl, (claim_C10 postBells).1⟩

/-- Claim C7: a create request that passes the Accept check but whose
Content-Type is not exactly application/json receives 415 with the fixed
message; the response is the same for every body (the check short-circuits
before the body is parsed or validated) and storage is unchanged. -/
theorem claim_C7 (req : Request) (body : List (String × Json)) (storage : List Post)
    (hacc : acceptsJson req.accept = true)
    (hct : req.contentType ≠ some "application/json") :
    posts_post req body storage = (unsupportedMediaResponse, storage) ∧
    unsupportedMediaResponse
      = ⟨415, "application/json",
          jsonMessage "Request must contain application/json data", none⟩ := by
  constructor
  · unfold posts_post
    rw [hacc, if_neg hct]
    simp
  · rfl

/-- Witness for claim C7: the test_unsupported_mimetype request. -/
theorem claim_C7_witness :
    posts_post ⟨some ["application/json"], some "application/xml"⟩ exampleBody []
      = (unsupportedMediaResponse, []) :=
  (claim_C7 ⟨some ["application/json"], some "application/xml"⟩ exampleBody []
    (by decide) (by decide)).1

/-- Claim C6: any request whose Accept header is present and accepts neither
application/json nor the wildcard gets 406 with the fixed message from every
endpoint, before any business logic (the response is independent of storage,
query and body); requests whose Accept header is absent or accepts
application/json (or the wildcard) pass the check. -/
theorem claim_C6 (req : Request) :
    (acceptsJson req.accept = false →
      (∀ nameLike storage,
        posts_get req nameLike storage = (notAcceptableResponse, storage)) ∧
      (∀ i storage, post_get req i storage = (notAcceptableResponse, storage)) ∧
      (∀ body storage,
        posts_post req body storage = (notAcceptableResponse, storage))) ∧
    (req.accept = none → acceptsJson req.accept = true) ∧
    (∀ types, req.accept = some types → "application/json" ∈ types →
      acceptsJson req.accept = true) ∧
    (∀ types, req.accept = some types → "*/*" ∈ types →
      acceptsJson req.accept = true) ∧
    notAcceptableResponse
      = ⟨406, "application/json",
          jsonMessage "Request must accept application/json data", none⟩ := by
  refine ⟨fun h => ⟨fun nl st => ?_, fun i st => ?_, fun b st => ?_⟩,
    fun h => by rw [h]; rfl, fun t ht hm => ?_, fun t ht hm => ?_, rfl⟩
  · unfold posts_get
    rw [h]
    simp
  · unfold post_get
    rw [h]
    simp
  · unfold posts_post
    rw [h]
    simp
  · rw [ht]
    simp only [acceptsJson, Bool.or_eq_true]
    simp only [List.contains_iff_exists_mem_beq] at *
    exact Or.inl (by simpa using hm)
  · rw [ht]
    simp only [acceptsJson, Bool.or_eq_true]
    simp only [List.contains_iff_exists_mem_beq] at *
    exact Or.inr (by simpa using hm)

/-- Witness for claim C6: the test_unsupported_accept_header request, and
the passing Accept values. -/
theorem claim_C6_witness :
    posts_get ⟨some ["application/xml"], none⟩ none []
      = (notAcceptableResponse, []) ∧
    acceptsJson (some ["application/json"]) = true ∧
    acceptsJson (some ["*/*"]) = true := by
  refine ⟨((claim_C6 ⟨some ["application/xml"], none⟩).1 (by decide)).1 none [], ?_, ?_⟩
  · exact (claim_C6 ⟨some ["application/json"], none⟩).2.2.1
      ["application/json"] rfl (by simp)
  · exact (claim_C6 ⟨some ["*/*"], none⟩).2.2.2.1 ["*/*"] rfl (by simp)

/-- Claim C5: for every storage state, the unfiltered list handler returns
200 with the JSON array of exactly the stored posts in ascending-id order,
each element serialized by as_dictionary; for empty storage the body is the
empty array. -/
theorem claim_C5 (req : Request) (storage : List Post)
    (hacc : acceptsJson req.accept = true) :
    posts_get req none storage
      = (⟨200, "application/json",
          Json.arr ((sortById storage).map (fun p => Json.obj p.as_dictionary)),
          none⟩, storage) ∧
    List.Perm (sortById storage) storage ∧
    List.Pairwise idLe (sortById storage) ∧
    (storage = [] →
      posts_get req none storage
        = (⟨200, "application/json", Json.arr [], none⟩, [])) := by
  have hmain : posts_get req none storage
      = (⟨200, "application/json",
          Json.arr ((sortById storage).map (fun p => Json.obj p.as_dictionary)),
          none⟩, storage) := by
    unfold posts_get
    rw [hacc]
    simp [listedPosts]
  refine ⟨hmain, sortById_perm storage, sortById_sorted storage, fun h => ?_⟩
  subst h
  rw [hmain]
  rfl

/-- Witness for claim C5 at empty storage and at the populated test
storage. -/
theorem claim_C5_witness :
    posts_get jsonRequest none []
      = (⟨200, "application/json", Json.arr [], none⟩, []) ∧
    List.Perm (sortById exampleStorage) exampleStorage := by
  exact ⟨(claim_C5 jsonRequest [] (by decide)).2.2.2 rfl,
         (claim_C5 jsonRequest exampleStorage (by decide)).2.1⟩

/-- Claim C4: for every get-by-id request that passes Accept negotiation, if
a post with the requested id exists (ids being distinct) the handler returns
200 with that record's JSON representation; if no post has the id it returns
404 with the id-specific message; storage is unchanged in both cases. -/
theorem claim_C4 (req : Request) (i : Nat) (storage : List Post)
    (hacc : acceptsJson req.accept = true) :
    (∀ p, p ∈ storage → p.id = i → idsDistinct storage →
      post_get req i storage
        = (⟨200, "application/json", Json.obj p.as_dictionary, none⟩, storage)) ∧
    ((∀ p, p ∈ storage → p.id ≠ i) →
      post_get req i storage
        = (errorResponse 404 ("Could not find post with id " ++ toString i),
           storage)) ∧
    (post_get req i storage).2 = storage := by
  refine ⟨fun p hp hi hd => ?_, fun h => ?_, post_get_storage⟩
  · unfold post_get
    rw [hacc, find?_of_mem_nodup hd hp hi]
    simp
  · unfold post_get
    rw [hacc, List.find?_eq_none.mpr (fun p hp => by simpa using h p hp)]
    simp

/-- Witness for claim C4: id 2 is found in the populated test storage, id 9
is not. -/
theorem claim_C4_witness :
    post_get jsonRequest 2 exampleStorage
      = (⟨200, "application/json", Json.obj postWhistles.as_dictionary, none⟩,
         exampleStorage) ∧
    post_get jsonRequest 9 exampleStorage
      = (errorResponse 404 "Could not find post with id 9", exampleStorage) :=
  ⟨(claim_C4 jsonRequest 2 exampleStorage (by decide)).1 postWhistles
      (by simp [exampleStorage]) rfl (by decide),
   (claim_C4 jsonRequest 9 exampleStorage (by decide)).2.1 (by decide)⟩

/-- Claim C3: for every list request with a name_like parameter, over any
storage, a record appears in the response iff its name contains the given
substring, the filtered listing is exactly the unfiltered listing restricted
to matching names (so filtering is order-preserving), and the result stays
in ascending-id order. -/
theorem claim_C3 (req : Request) (s : String) (storage : List Post)
    (hacc : acceptsJson req.accept = true) :
    (∀ p, p ∈ listedPosts (some s) storage ↔
      p ∈ storage ∧ strContains p.name s = true) ∧
    listedPosts (some s) storage
      = (listedPosts none storage).filter (fun p => strContains p.name s) ∧
    List.Pairwise idLe (listedPosts (some s) storage) ∧
    (posts_get req (some s) storage).1
      = ⟨200, "application/json",
          Json.arr ((listedPosts (some s) storage).map
            (fun p => Json.obj p.as_dictionary)), none⟩ := by
  refine ⟨fun p => ?_, rfl, ?_, ?_⟩
  · simp [listedPosts, List.mem_filter, (sortById_perm storage).mem_iff]
  · exact (sortById_sorted storage).sublist (List.filter_sublist _)
  · unfold posts_get
    rw [hacc]
    simp

/-- Witness for claim C3: the test_get_posts_with_name filter on the
populated test storage. -/
theorem claim_C3_witness :
    (postWhistles ∈ listedPosts (some "whistles") exampleStorage ↔
      postWhistles ∈ exampleStorage ∧
      strContains postWhistles.name "whistles" = true) ∧
    (posts_get jsonRequest (some "whistles") exampleStorage).1
      = ⟨200, "application/json",
          Json.arr ((listedPosts (some "whistles") exampleStorage).map
            (fun p => Json.obj p.as_dictionary)), none⟩ := by
  have h := claim_C3 jsonRequest "whistles" exampleStorage (by decide)
  exact ⟨h.1 postWhistles, h.2.2.2⟩

/-- Claim C2: a create request passing content negotiation whose body fails
validation gets 422 with the validation message as body and no record is
persisted; a missing required field produces the required-property message
for the first missing required field, a wrongly typed present field produces
the not-of-type message with the value in natural string form (a bare
integer for numbers). -/
theorem claim_C2 (req : Request) (body : List (String × Json)) (storage : List Post)
    (hacc : acceptsJson req.accept = true)
    (hct : req.contentType = some "application/json") :
    (∀ m, validate body = some m →
      posts_post req body storage = (errorResponse 422 m, storage)) ∧
    (∀ f, firstMissing body = some f →
      f ∈ requiredFields ∧ body.lookup f = none ∧
      validate body = some (requiredMessage f)) ∧
    (∀ v, firstMissing body = none → firstBadType body = some v →
      v.isStr = false ∧ (∃ g, g ∈ schemaFields ∧ body.lookup g = some v) ∧
      validate body = some (typeMessage v)) ∧
    (∀ f, requiredMessage f = "'" ++ f ++ "' is a required property") ∧
    (∀ n : Int, typeMessage (Json.num n) = toString n ++ " is not of type 'string'") ∧
    (∀ m, errorResponse 422 m
      = ⟨422, "application/json", Json.obj [("message", Json.str m)], none⟩) := by
  refine ⟨fun m hm => posts_post_invalid hacc hct hm, fun f hf => ?_, fun v hm hb => ?_,
    fun f => rfl, fun n => rfl, fun m => rfl⟩
  · refine ⟨List.mem_of_find?_eq_some hf, ?_, validate_of_missing hf⟩
    have h2 := List.find?_some hf
    simpa [Option.isNone_iff_eq_none] using h2
  · refine ⟨?_, ?_, validate_of_badType hm hb⟩
    · have h2 := List.find?_some hb
      simpa using h2
    · have h3 := List.mem_of_find?_eq_some hb
      simpa [List.mem_filterMap] using h3

/-- Witness for claim C2: the test_missing_data and test_invalid_data
payloads in empty storage. -/
theorem claim_C2_witness :
    posts_post jsonRequest missingBody []
      = (errorResponse 422 "'ingredients' is a required property", []) ∧
    posts_post jsonRequest badTypeBody []
      = (errorResponse 422 "32 is not of type 'string'", []) :=
  ⟨(claim_C2 jsonRequest missingBody [] (by decide) rfl).1
      "'ingredients' is a required property" (by decide),
   (claim_C2 jsonRequest badTypeBody [] (by decide) rfl).1
      "32 is not of type 'string'" (by decide)⟩

/-- Claim C8: a create request passing content negotiation whose body holds
any property other than name, description, ingredients and directions fails
validation (the schema disallows additional properties) and the handler
returns 422 without persisting anything. -/
theorem claim_C8 (req : Request) (body : List (String × Json)) (storage : List Post)
    (k : String) (v : Json)
    (hacc : acceptsJson req.accept = true)
    (hct : req.contentType = some "application/json")
    (hk : (k, v) ∈ body) (hnot : k ∉ schemaFields) :
    ∃ m, validate body = some m ∧
      posts_post req body storage = (errorResponse 422 m, storage) ∧
      (errorResponse 422 m).status = 422 := by
  have hkm : k ∈ body.map Prod.fst := List.mem_map_of_mem Prod.fst hk
  have hpred : (!schemaFields.contains k) = true := by
    simp only [Bool.not_eq_true']
    simpa using hnot
  have hext : firstExtra body ≠ none := by
    intro h
    exact absurd hpred (by simpa using List.find?_eq_none.mp h k hkm)
  have hval : validate body ≠ none := by
    intro h
    exact hext (validate_none_parts h).2.2
  obtain ⟨m, hm⟩ := Option.ne_none_iff_exists'.mp hval
  exact ⟨m, hm, posts_post_invalid hacc hct hm, rfl⟩

/-- Witness for claim C8: a payload with the undeclared property extra. -/
theorem claim_C8_witness :
    posts_post jsonRequest extraBody []
      = (errorResponse 422 (additionalMessage "extra"), []) := by
  obtain ⟨m, hm, he, _⟩ := claim_C8 jsonRequest extraBody [] "extra" (Json.str "w")
    (by decide) rfl (by simp [extraBody]) (by decide)
  have h2 : validate extraBody = some (additionalMessage "extra") := by decide
  rw [hm] at h2
  rw [← Option.some_inj.mp h2]
  exact he

/-- Claim C9: every operation preserves the storage invariant — no two
persisted posts share an id (ids only change by appending one strictly
larger than every existing id, so ids are never reused), the read handlers
leave storage unchanged, and every persisted post serializes with name,
ingredients and directions present as non-null strings. -/
theorem claim_C9 (req : Request) (body : List (String × Json)) (storage : List Post)
    (i : Nat) (nameLike : Option String)
    (hinv : idsDistinct storage) :
    idsDistinct (posts_post req body storage).2 ∧
    (posts_get req nameLike storage).2 = storage ∧
    (post_get req i storage).2 = storage ∧
    (∀ p, p ∈ storage → p.id < nextId storage) ∧
    (∀ p, p ∈ (posts_post req body storage).2 →
      (p.as_dictionary).lookup "name" = some (Json.str p.name) ∧
      (p.as_dictionary).lookup "ingredients" = some (Json.str p.ingredients) ∧
      (p.as_dictionary).lookup "directions" = some (Json.str p.directions)) := by
  refine ⟨?_, posts_get_storage, post_get_storage, fun p hp => id_lt_nextId hp,
    fun p _ => ⟨rfl, rfl, rfl⟩⟩
  rcases posts_post_storage req body storage with h | h
  · rw [h]
    exact hinv
  · rw [h]
    have hfresh : nextId storage ∉ storage.map Post.id := by
      intro hmem
      obtain ⟨q, hq, hqe⟩ := List.mem_map.mp hmem
      exact absurd hqe (Nat.ne_of_lt (id_lt_nextId hq))
    simp only [idsDistinct, List.map_append, List.map_cons, List.map_nil]
    rw [List.nodup_append]
    exact ⟨hinv, List.nodup_singleton _, by
      simpa [List.disjoint_singleton] using hfresh⟩

/-- Witness for claim C9: creating the example post over the populated test
storage keeps ids distinct. -/
theorem claim_C9_witness :
    idsDistinct (posts_post jsonRequest exampleBody exampleStorage).2 ∧
    (post_get jsonRequest 1 exampleStorage).2 = exampleStorage := by
  have h := claim_C9 jsonRequest exampleBody exampleStorage 1 none (by decide)
  exact ⟨h.1, h.2.2.1⟩

/-- Claim C1: a create request that passes content negotiation with a body
valid against the schema persists exactly one new post built from the
validated fields, returns 201 whose body is the new post's JSON
representation, sets the Location header path to /api/posts/<new id> where
the new id is the next sequential id (1 in empty storage), and the record is
subsequently retrievable via get-by-id with identical field values. -/
theorem claim_C1 (req : Request) (body : List (String × Json)) (storage : List Post)
    (hacc : acceptsJson req.accept = true)
    (hct : req.contentType = some "application/json")
    (hval : validate body = none) :
    posts_post req body storage
      = (⟨201, "application/json",
          Json.obj (buildPost (nextId storage) body).as_dictionary,
          some ("/api/posts/" ++ toString (nextId storage))⟩,
         storage ++ [buildPost (nextId storage) body]) ∧
    (buildPost (nextId storage) body).id = nextId storage ∧
    (∀ f, f ∈ requiredFields →
      body.lookup f = some (Json.str (getStrField body f))) ∧
    (buildPost (nextId storage) body).name = getStrField body "name" ∧
    (buildPost (nextId storage) body).description = getDescription body ∧
    (buildPost (nextId storage) body).ingredients = getStrField body "ingredients" ∧
    (buildPost (nextId storage) body).directions = getStrField body "directions" ∧
    (storage = [] → nextId storage = 1) ∧
    post_get req (nextId storage) (posts_post req body storage).2
      = (⟨200, "application/json",
          Json.obj (buildPost (nextId storage) body).as_dictionary, none⟩,
         (posts_post req body storage).2) := by
  have hmain := posts_post_success storage hacc hct hval
  refine ⟨hmain, rfl, fun f hf => lookup_str_of_valid hval hf, rfl, rfl, rfl, rfl,
    fun h => by rw [h]; rfl, ?_⟩
  have h2 : (posts_post req body storage).2
      = storage ++ [buildPost (nextId storage) body] := by rw [hmain]
  rw [h2]
  unfold post_get
  rw [hacc]
  have hnone : storage.find? (fun q => q.id == nextId storage) = none :=
    List.find?_eq_none.mpr (fun q hq => by
      simpa using Nat.ne_of_lt (id_lt_nextId hq))
  rw [find?_append_of_none hnone,
    List.find?_cons_of_pos _ (by simp [buildPost])]
  simp

/-- Witness for claim C1: the test_post_post payload in empty storage gets
id 1, Location /api/posts/1, and is retrievable afterwards. -/
theorem claim_C1_witness :
    posts_post jsonRequest exampleBody []
      = (⟨201, "application/json",
          Json.obj (buildPost 1 exampleBody).as_dictionary,
          some "/api/posts/1"⟩, [buildPost 1 exampleBody]) ∧
    post_get jsonRequest 1 [buildPost 1 exampleBody]
      = (⟨200, "application/json",
          Json.obj (buildPost 1 exampleBody).as_dictionary, none⟩,
         [buildPost 1 exampleBody]) ∧
    buildPost 1 exampleBody
      = ⟨1, "Example Post", some "test", "Just a test", "testing"⟩ := by
  have h := claim_C1 jsonRequest exampleBody [] (by decide) rfl (by decide)
  exact ⟨h.1, h.2.2.2.2.2.2.2.2, by decide⟩

end Recipes
